import Mathlib

/-!
Verification of the bank-sync transaction matching and settlement engine
(`pretix_bank_sync/tasks.py` together with the model constants of
`pretix_bank_sync/models.py`).

The Python code is shallowly embedded as executable Lean functions:

* `Decimal` amounts and float confidence scores become `Rat`; all arithmetic
  is exact.  Because the library operations on `Rat` are irreducible, the
  embedding performs arithmetic through small `mkRat`-based helpers (`qadd`,
  `qsub`, `qmul`, ...) that the kernel can evaluate; each is proved equal to
  the corresponding library operation.  Decimal literals such as `0.01` are
  written `mkRat 1 100`.
* Django model rows become structures (`OrderRec`, `BankTrans`,
  `SuggestionRec`); the database and the external collaborators reachable
  from the settlement code are collected in `LedgerEnv`:
  - `orders` is the organizer's order table,
  - `invoice_lookup` abstracts the invoice-ledger query performed by
    `_find_order_for_invoice_id` (a `Q`-object regex query against the
    invoice table; the claims under study never depend on the regex itself,
    only on whether the query finds an order),
  - `confirm_result` gives the outcome of `OrderPayment.confirm()` for the
    payment of a given order (success, `Quota.QuotaExceededException`,
    `SendMailException`, or any other exception with its message),
  - `normalize_code` / `entropy_order_code` stand for the pretix-core
    helpers `Order.normalize_code` and `settings.ENTROPY['order_code']`,
    which live outside this plugin.
* Ledger mutations (payment / refund creation) are recorded as a list of
  `MoneyMove` trace events instead of database writes; the three refund
  persistence paths of `_handle_transaction` (completing a pending refund,
  attaching an external refund to a confirmed payment, creating a new
  external refund) are collapsed into a single `refund` event since the
  branches produce a refund of the same order and magnitude.
* Match-reason strings keep the exact marker text the code later searches
  for (`"Multiple order codes found"`); purely informational parts of the
  f-strings (interpolated numbers, quote characters) are elided.
* `trans.date.isoformat()` is modeled by storing the date as its ISO string.
-/

namespace BankSync

/-! ## Exact rational arithmetic helpers -/

/-- Kernel-reducible addition on `Rat` (the library `Rat.add` is
irreducible). -/
def qadd (a b : Rat) : Rat := mkRat (a.num * b.den + b.num * a.den) (a.den * b.den)

/-- Kernel-reducible subtraction on `Rat`. -/
def qsub (a b : Rat) : Rat := mkRat (a.num * b.den - b.num * a.den) (a.den * b.den)

/-- Kernel-reducible multiplication on `Rat`. -/
def qmul (a b : Rat) : Rat := mkRat (a.num * b.num) (a.den * b.den)

/-- Kernel-reducible division on `Rat` (only ever used with a positive
divisor, as in the source). -/
def qdiv (a b : Rat) : Rat :=
  if b.num < 0 then mkRat (-(a.num * b.den)) (a.den * b.num.natAbs)
  else mkRat (a.num * b.den) (a.den * b.num.natAbs)

/-- Absolute value, mirroring Python `abs`. -/
def qabs (a : Rat) : Rat := if a < 0 then mkRat (-a.num) a.den else a

/-- Python `min` on two rationals. -/
def qmin (a b : Rat) : Rat := if a ≤ b then a else b

/-- Python `max` on two rationals. -/
def qmax (a b : Rat) : Rat := if b ≤ a then a else b

/-! ## String helpers

Python string operations (`.upper()`, `in`, `.replace`, `.split()`,
`" ".join`) are re-implemented on `List Char` so that every definition is
evaluable by the kernel.  All inputs in this development are ASCII, where
`Char.toUpper` agrees with Python `str.upper`. -/

/-- Python `str.upper()` (ASCII). -/
def upper (s : String) : String := String.mk (s.toList.map Char.toUpper)

/-- Char-list version of "needle is a leading segment of hay". -/
def chars_is_pre : List Char → List Char → Bool
  | [], _ => true
  | _ :: _, [] => false
  | a :: as, b :: bs => a == b && chars_is_pre as bs

/-- Char-list version of "needle occurs contiguously inside hay". -/
def chars_infix_of (needle : List Char) : List Char → Bool
  | [] => needle.isEmpty
  | b :: bs => chars_is_pre needle (b :: bs) || chars_infix_of needle bs

/-- Python `needle in hay` on strings. -/
def str_contains (hay needle : String) : Bool :=
  chars_infix_of needle.toList hay.toList

/-- Sequential Python `.replace(c, "")` for single characters: removes every
occurrence of the listed characters. -/
def strip_chars (cs : List Char) (s : String) : String :=
  String.mk (s.toList.filter (fun c => !cs.contains c))

/-- Python `re.sub(r'[^A-Z0-9]', '', s)` applied to an already uppercased
string: keeps only capital letters and digits. -/
def normalize_alnum (s : String) : String :=
  String.mk (s.toList.filter (fun c => ('A' ≤ c && c ≤ 'Z') || ('0' ≤ c && c ≤ '9')))

/-- Worker for `split_ws`; accumulates the current token reversed. -/
def split_ws_aux : List Char → List Char → List String
  | [], acc => if acc.isEmpty then [] else [String.mk acc.reverse]
  | c :: cs, acc =>
    if c.isWhitespace then
      (if acc.isEmpty then [] else [String.mk acc.reverse]) ++ split_ws_aux cs []
    else split_ws_aux cs (c :: acc)

/-- Python `str.split()` with no argument: splits on runs of whitespace and
drops empty tokens. -/
def split_ws (s : String) : List String := split_ws_aux s.toList []

/-- Python `" ".join(parts)`. -/
def join_space : List String → String
  | [] => ""
  | [x] => x
  | x :: y :: xs => x ++ " " ++ join_space (y :: xs)

/-- First-occurrence deduplication, mirroring the distinct elements of a
Python `set` built from a list. -/
def dedup_first (seen : List String) : List String → List String
  | [] => []
  | x :: xs => if seen.contains x then dedup_first seen xs
               else x :: dedup_first (x :: seen) xs

/-! ## Data model (`models.py`) -/

/-- States of `BankTransaction` (`BankTransaction.STATE_*`). -/
inductive TransState where
  | unchecked
  | nomatch
  | matched
  | pendingApproval
  | error
  | duplicate
  | discarded
deriving DecidableEq, Repr

/-- Order status as used by the settlement code (`Order.STATUS_*` from
pretix core; only the distinctions the code reads are modeled). -/
inductive OrderStatus where
  | pending
  | paid
  | canceled
  | expired
deriving DecidableEq, Repr

/-- Match types of `TransactionMatchSuggestion` (`MATCH_TYPE_*`). -/
inductive MatchType where
  | exactCode
  | fuzzyCode
  | senderName
  | amountOnly
deriving DecidableEq, Repr

/-- The slice of a pretix `Order` row read by the matching and settlement
code.  `customer_name` is `order.customer.name_cached` with `""` standing
for a missing customer or empty cached name (both falsy in Python). -/
structure OrderRec where
  code : String
  event_slug : String
  event_currency : String
  status : OrderStatus
  pending_sum : Rat
  customer_name : String
deriving DecidableEq, Repr

/-- The slice of a `BankTransaction` row the engine reads and writes.
`date` holds `trans.date.isoformat()`; `payment` records the `(order code,
amount)` of the payment object assigned to `trans.payment`. -/
structure BankTrans where
  amount : Rat
  currency : String
  reference : String
  remittance_structured : String
  remittance_unstructured : String
  debtor_name : String
  creditor_name : String
  date : String
  state : TransState
  error_message : Option String
  is_partial_payment : Bool
  payment_group_id : Option String
  order_code : Option String
  payment : Option (String × Rat)
deriving DecidableEq, Repr

/-- `BankTransaction.get_reference_text`. -/
def get_reference_text (t : BankTrans) : String :=
  if t.reference ≠ "" then t.reference
  else join_space
    ((if t.remittance_structured ≠ "" then [t.remittance_structured] else []) ++
     (if t.remittance_unstructured ≠ "" then [t.remittance_unstructured] else []))

/-- `BankTransaction.get_sender_name`: `debtor_name or creditor_name`. -/
def get_sender_name (t : BankTrans) : String :=
  if t.debtor_name ≠ "" then t.debtor_name else t.creditor_name

/-- Outcome of `OrderPayment.confirm()` for one payment. -/
inductive ConfirmResult where
  | ok
  | quotaExceeded
  | sendMailFailed
  | failed (msg : String)
deriving DecidableEq, Repr

/-- A ledger mutation performed by the settlement loop: either one of the
three refund persistence paths (collapsed, carrying the signed split
amount, which is negative) or a find-or-create of a banktransfer payment
together with whether `confirm()` succeeded. -/
inductive MoneyMove where
  | refund (order_code : String) (amount : Rat)
  | payment (order_code : String) (amount : Rat) (confirmed : Bool)
deriving DecidableEq, Repr

/-- Order code of a ledger mutation. -/
def MoneyMove.code : MoneyMove → String
  | .refund c _ => c
  | .payment c _ _ => c

/-- Signed split amount of a ledger mutation. -/
def MoneyMove.amount : MoneyMove → Rat
  | .refund _ a => a
  | .payment _ a _ => a

/-- The database rows and external collaborators visible to the engine. -/
structure LedgerEnv where
  orders : List OrderRec
  invoice_lookup : List String → String → Option OrderRec
  confirm_result : String → ConfirmResult
  normalize_code : String → String
  entropy_order_code : Nat

/-! ## Name similarity (`_normalize_name`, `_calculate_name_similarity`) -/

/-- `_normalize_name`: uppercase and collapse internal whitespace. -/
def normalize_name (name : String) : String :=
  if name = "" then "" else join_space (split_ws (upper name))

/-- `_calculate_name_similarity`: Jaccard index of the whitespace-delimited
token sets of the two normalized names.  Token-set intersection and union
sizes are computed on first-occurrence-deduplicated token lists, matching
the cardinalities of the Python `set` operations. -/
def calculate_name_similarity (name1 name2 : String) : Rat :=
  if name1 = "" ∨ name2 = "" then 0
  else
    let name1_norm := normalize_name name1
    let name2_norm := normalize_name name2
    if name1_norm = name2_norm then 1
    else
      let words1 := dedup_first [] (split_ws name1_norm)
      let words2 := dedup_first [] (split_ws name2_norm)
      if words1.isEmpty ∨ words2.isEmpty then 0
      else
        let intersection := (words1.filter (fun w => words2.contains w)).length
        let union := (words1 ++ words2.filter (fun w => !words1.contains w)).length
        if union = 0 then 0 else qdiv (intersection : Rat) (union : Rat)

/-! ## Fuzzy code search (`_find_fuzzy_code_matches`) -/

/-- `_find_fuzzy_code_matches`: order codes appearing in the reference text,
directly or after stripping all non-alphanumeric characters from both
sides.  As in the source, a code matching both ways is appended twice. -/
def find_fuzzy_code_matches (reference_text : String) (order_codes : List String) : List String :=
  let reference_upper := upper reference_text
  order_codes.foldl (fun acc code =>
    let code_upper := upper code
    let acc1 :=
      if str_contains reference_upper code_upper then acc ++ [code] else acc
    let code_normalized := normalize_alnum code_upper
    let ref_normalized := normalize_alnum reference_upper
    if str_contains ref_normalized code_normalized then acc1 ++ [code] else acc1) []

/-! ## Suggestion generation (`_generate_match_suggestions`) -/

/-- A suggestion dict as built by `_generate_match_suggestions` (the
`is_multi_order` / `related_orders` keys of the multi-order branch are
omitted: no later code reads them, the multi-order property is re-derived
from the `match_reason` marker text). -/
structure Suggestion where
  order : OrderRec
  match_type : MatchType
  confidence_score : Rat
  match_reason : String
  amount_match : Bool
  amount_difference : Rat
deriving DecidableEq, Repr

/-- Exact-code hit test of step 1: the uppercased order code occurs in the
uppercased reference, directly or with separators stripped. -/
def exact_code_hit (reference_upper : String) (o : OrderRec) : Bool :=
  let order_code_upper := upper o.code
  str_contains reference_upper order_code_upper ||
  str_contains (strip_chars [' ', '-'] reference_upper) (strip_chars ['-'] order_code_upper)

/-- Confidence grading shared by the single-order and the
multiple-orders-with-sum-mismatch arms of step 1 (the source repeats these
lines verbatim in both arms). -/
def exact_confidence (amount_match currency_match is_eur : Bool) : Rat :=
  if amount_match && currency_match && is_eur then 1
  else if amount_match && currency_match then mkRat 85 100
  else if amount_match && is_eur then mkRat 85 100
  else if amount_match then mkRat 8 10
  else if is_eur then mkRat 9 10
  else mkRat 85 100

/-- Reason suffixes appended when the currencies mismatch or the
transaction is not in EUR (interpolated values elided). -/
def reason_suffixes (currency_match is_eur : Bool) (trans_currency order_currency : String) : String :=
  (if !currency_match then " (currency mismatch: " ++ trans_currency ++ " vs " ++ order_currency ++ ")" else "") ++
  (if !is_eur then " (non-EUR currency: " ++ trans_currency ++ ")" else "")

/-- Step 1 of `_generate_match_suggestions`: exact order-code matches, with
the multi-order split detection. -/
def stage1_exact (trans : BankTrans) (pending_orders : List OrderRec) : List Suggestion :=
  let reference_upper := upper (get_reference_text trans)
  let is_eur := upper trans.currency == "EUR"
  let matched_orders := pending_orders.filter (exact_code_hit reference_upper)
  if 1 < matched_orders.length then
    let total_pending := matched_orders.foldl (fun s o => qadd s o.pending_sum) 0
    let total_amount_match := qabs (qsub trans.amount total_pending) < mkRat 1 100
    let currency_match_all :=
      matched_orders.all (fun o => upper trans.currency == upper o.event_currency)
    if total_amount_match && currency_match_all then
      matched_orders.map (fun order =>
        { order := order
          match_type := .exactCode
          confidence_score := if is_eur then mkRat 95 100 else mkRat 85 100
          match_reason :=
            "Multiple order codes found in reference. This transaction appears to pay " ++
            "several orders. Order " ++ order.code ++ " is one of them."
          amount_match := true
          amount_difference := qsub order.pending_sum trans.amount })
    else
      matched_orders.map (fun order =>
        let amount_match := qabs (qsub trans.amount order.pending_sum) < mkRat 1 100
        let currency_match := upper trans.currency == upper order.event_currency
        { order := order
          match_type := .exactCode
          confidence_score := exact_confidence amount_match currency_match is_eur
          match_reason :=
            "Exact order code " ++ order.code ++ " found in transaction reference" ++
            " (Note: several order codes found, but amounts do not sum correctly)" ++
            reason_suffixes currency_match is_eur trans.currency order.event_currency
          amount_match := amount_match
          amount_difference := qsub trans.amount order.pending_sum })
  else
    matched_orders.map (fun order =>
      let amount_match := qabs (qsub trans.amount order.pending_sum) < mkRat 1 100
      let currency_match := upper trans.currency == upper order.event_currency
      { order := order
        match_type := .exactCode
        confidence_score := exact_confidence amount_match currency_match is_eur
        match_reason :=
          "Exact order code " ++ order.code ++ " found in transaction reference" ++
          reason_suffixes currency_match is_eur trans.currency order.event_currency
        amount_match := amount_match
        amount_difference := qsub trans.amount order.pending_sum })

/-- Step 2 of `_generate_match_suggestions`: fuzzy order-code matches (the
`if not suggestions` guard is applied by the caller). -/
def stage2_fuzzy (trans : BankTrans) (pending_orders : List OrderRec) : List Suggestion :=
  let reference_text := get_reference_text trans
  let order_codes := pending_orders.map OrderRec.code
  let fuzzy_matches := find_fuzzy_code_matches reference_text order_codes
  let is_eur := upper trans.currency == "EUR"
  (pending_orders.filter (fun o => fuzzy_matches.contains o.code)).map (fun order =>
    let amount_match := qabs (qsub trans.amount order.pending_sum) < mkRat 1 100
    let currency_match := upper trans.currency == upper order.event_currency
    let confidence :=
      if amount_match && currency_match && is_eur then mkRat 75 100
      else if amount_match then mkRat 7 10
      else mkRat 65 100
    let confidence := if !is_eur then qmax (mkRat 6 10) (qsub confidence (mkRat 1 10)) else confidence
    { order := order
      match_type := .fuzzyCode
      confidence_score := confidence
      match_reason :=
        "Order code " ++ order.code ++ " found within transaction reference text" ++
        reason_suffixes currency_match is_eur trans.currency order.event_currency
      amount_match := amount_match
      amount_difference := qsub trans.amount order.pending_sum })

/-- Step 3 of `_generate_match_suggestions`: sender-name similarity against
the cached customer name.  Note that in the source this step is guarded
only by the presence of a sender name, not by the suggestion list being
empty. -/
def stage3_sender (trans : BankTrans) (pending_orders : List OrderRec) : List Suggestion :=
  let sender_name := get_sender_name trans
  let is_eur := upper trans.currency == "EUR"
  if sender_name ≠ "" then
    pending_orders.filterMap (fun order =>
      let customer_name := order.customer_name
      if customer_name ≠ "" then
        let name_similarity := calculate_name_similarity sender_name customer_name
        if mkRat 1 2 < name_similarity then
          let amount_match := qabs (qsub trans.amount order.pending_sum) < mkRat 1 100
          let currency_match := upper trans.currency == upper order.event_currency
          let confidence := qmul name_similarity (mkRat 6 10)
          let confidence :=
            if amount_match && currency_match && is_eur then
              qmin (mkRat 8 10) (qadd (qmul name_similarity (mkRat 7 10)) (mkRat 3 10))
            else if amount_match then
              qmin (mkRat 75 100) (qadd (qmul name_similarity (mkRat 65 100)) (mkRat 25 100))
            else confidence
          let confidence :=
            if !is_eur then qmax (mkRat 1 2) (qsub confidence (mkRat 1 10)) else confidence
          some
            { order := order
              match_type := .senderName
              confidence_score := confidence
              match_reason :=
                "Sender name " ++ sender_name ++ " matches customer name " ++ customer_name ++
                reason_suffixes currency_match is_eur trans.currency order.event_currency
              amount_match := amount_match
              amount_difference := qsub trans.amount order.pending_sum }
        else none
      else none)
  else []

/-- Step 4 of `_generate_match_suggestions`: amount-only fallback (the
`if not suggestions` guard is applied by the caller).  As in the source,
`amount_difference` here carries the absolute difference. -/
def stage4_amount (trans : BankTrans) (pending_orders : List OrderRec) : List Suggestion :=
  let is_eur := upper trans.currency == "EUR"
  pending_orders.filterMap (fun order =>
    let currency_match := upper trans.currency == upper order.event_currency
    let amount_match := qabs (qsub trans.amount order.pending_sum) < mkRat 1 100
    let amount_diff := qabs (qsub trans.amount order.pending_sum)
    if currency_match &&
       amount_diff ≤ qmax (qmul order.pending_sum (mkRat 1 10)) (mkRat 10 1) then
      let confidence :=
        if amount_match && is_eur then mkRat 4 10
        else if amount_match then mkRat 35 100
        else if is_eur then mkRat 3 10
        else mkRat 25 100
      some
        { order := order
          match_type := .amountOnly
          confidence_score := confidence
          match_reason :=
            "Amount match only (no order code or name found)." ++
            (if !amount_match then " (difference from pending amount)" else "")
          amount_match := amount_match
          amount_difference := amount_diff }
    else none)

/-- Stable insertion of a suggestion into a descending-confidence list:
the new element goes after every element of equal or higher confidence. -/
def insert_desc (x : Suggestion) : List Suggestion → List Suggestion
  | [] => [x]
  | y :: ys =>
    if x.confidence_score ≤ y.confidence_score then y :: insert_desc x ys
    else x :: y :: ys

/-- Stable descending sort by confidence.  Python `list.sort(key=...,
reverse=True)` is stable, and a stable sort under a total preorder of keys
is unique, so this insertion sort computes the same list. -/
def sort_desc : List Suggestion → List Suggestion
  | [] => []
  | x :: xs => insert_desc x (sort_desc xs)

/-- `_generate_match_suggestions`: staged candidate generation, descending
stable sort, and truncation to the top 10. -/
def generate_match_suggestions (env : LedgerEnv) (trans : BankTrans) : List Suggestion :=
  let pending_orders := env.orders.filter (fun o => o.status == OrderStatus.pending)
  if pending_orders.isEmpty then []
  else
    let s1 := stage1_exact trans pending_orders
    let s2 := if s1.isEmpty then stage2_fuzzy trans pending_orders else []
    let s3 := stage3_sender trans pending_orders
    let s4 := if (s1 ++ s2 ++ s3).isEmpty then stage4_amount trans pending_orders else []
    (sort_desc (s1 ++ s2 ++ s3 ++ s4)).take 10

/-! ## Settlement (`_handle_transaction` and its helpers) -/

/-- `_find_order_for_code`: try the code itself, its normalized form, its
entropy-length truncation and the normalized truncation against the
(already filtered) order queryset.  `base_qs.get(code=c)` becomes a
first-match lookup. -/
def find_order_for_code (env : LedgerEnv) (base_qs : List OrderRec) (code : String) :
    Option OrderRec :=
  let try_codes := [code, env.normalize_code code,
    code.take env.entropy_order_code,
    env.normalize_code (code.take env.entropy_order_code)]
  try_codes.findSome? (fun c => base_qs.find? (fun o => o.code == c))

/-- Python `dict.get(slug, slug)` on the `regex_match_to_slug` mapping. -/
def assoc_get_default (m : List (String × String)) (k : String) : String :=
  match m.find? (fun p => p.1 == k) with
  | some p => p.2
  | none => k

/-- The order-resolution loop at the top of `_handle_transaction`: the
queryset is filtered by the organizer (implicit in `env.orders`) and by
`event__currency=trans.currency`; each `(slug, code)` match is looked up by
code within the events of that slug (case-insensitively, also under the
original slug of a regex alias), falling back to the invoice-ledger query,
and deduplicated by order code.  Only the transaction's currency is read
from the transaction, so it is the only transaction argument. -/
def resolve_step (env : LedgerEnv) (currency : String)
    (regex_match_to_slug : List (String × String)) (orders : List OrderRec)
    (m : String × String) : List OrderRec :=
  let slug := m.1
  let code := m.2
  let original_slug := assoc_get_default regex_match_to_slug slug
  let qs := env.orders.filter (fun o => o.event_currency == currency)
  let filtered := qs.filter (fun o =>
    upper o.event_slug == upper slug || upper o.event_slug == upper original_slug)
  match find_order_for_code env filtered code with
  | some order =>
    if (orders.map OrderRec.code).contains order.code then orders else orders ++ [order]
  | none =>
    match env.invoice_lookup [slug, original_slug] code with
    | some order =>
      if (orders.map OrderRec.code).contains order.code then orders else orders ++ [order]
    | none => orders

/-- The whole resolution loop: fold `resolve_step` over the `(slug, code)`
matches, starting from an empty order list. -/
def resolve_orders (env : LedgerEnv) (currency : String)
    (code_matches : List (String × String))
    (regex_match_to_slug : List (String × String)) : List OrderRec :=
  code_matches.foldl (resolve_step env currency regex_match_to_slug) []

/-- Per-order precondition violations detected by the guard loop of
`_handle_transaction`. -/
inductive Violation where
  | duplicate
  | canceled
  | currencyMismatch
deriving DecidableEq, Repr

/-- Terminal transaction state produced by each precondition violation. -/
def violation_state : Violation → TransState
  | .duplicate => .duplicate
  | .canceled => .error
  | .currencyMismatch => .error

/-- Error message recorded for each precondition violation (`duplicate`
leaves the message unchanged). -/
def violation_message (previous : Option String) : Violation → Option String
  | .duplicate => previous
  | .canceled => some "The order has already been canceled."
  | .currencyMismatch => some "Currencies do not match."

/-- The precondition loop of `_handle_transaction`: for each order in turn,
a fully paid order with non-positive pending sum wins first, then a
canceled order, then a currency mismatch; the first violation found is
returned. -/
def first_violation (currency : String) : List OrderRec → Option Violation
  | [] => none
  | o :: os =>
    if o.status = OrderStatus.paid ∧ o.pending_sum ≤ 0 then some .duplicate
    else if o.status = OrderStatus.canceled then some .canceled
    else if currency ≠ o.event_currency then some .currencyMismatch
    else first_violation currency os

/-- The payment/refund loop of `_handle_transaction` over the split list:
negative amounts produce a refund; non-negative amounts find-or-create a
payment and attempt to confirm it.  `QuotaExceededException` and
`SendMailException` are only logged; any other exception sets the
transaction to the error state with the exception message and the loop
continues with the next split. -/
def process_splits (env : LedgerEnv) : List (OrderRec × Rat) → BankTrans →
    BankTrans × List MoneyMove
  | [], t => (t, [])
  | (o, a) :: rest, t =>
    if a < 0 then
      let r := process_splits env rest t
      (r.1, .refund o.code a :: r.2)
    else
      match env.confirm_result o.code with
      | .ok =>
        let r := process_splits env rest { t with payment := some (o.code, a) }
        (r.1, .payment o.code a true :: r.2)
      | .quotaExceeded =>
        let r := process_splits env rest t
        (r.1, .payment o.code a false :: r.2)
      | .sendMailFailed =>
        let r := process_splits env rest t
        (r.1, .payment o.code a false :: r.2)
      | .failed msg =>
        let r := process_splits env rest
          { t with state := .error, error_message := some msg }
        (r.1, .payment o.code a false :: r.2)

/-- Specification-side view of the confirmation outcomes of a split list:
the messages of the confirmation attempts that raise an exception other
than the two swallowed ones, in processing order (refund splits attempt no
confirmation). -/
def confirm_failures (env : LedgerEnv) (splits : List (OrderRec × Rat)) : List String :=
  splits.filterMap (fun (p : OrderRec × Rat) =>
    if p.2 < 0 then none
    else
      match env.confirm_result p.1.code with
      | .failed msg => some msg
      | _ => none)

/-- Result of a settlement: the saved transaction row and the ledger
mutations performed. -/
structure SettleResult where
  trans : BankTrans
  moves : List MoneyMove
deriving DecidableEq, Repr

/-- The tail of `_handle_transaction` after the split list is fixed: run the
precondition loop over the resolved orders, then (state `matched`) process
every split. -/
def settle_splits (env : LedgerEnv) (t : BankTrans) (orders : List OrderRec)
    (splits : List (OrderRec × Rat)) : SettleResult :=
  match first_violation t.currency orders with
  | some .duplicate => { trans := { t with state := .duplicate }, moves := [] }
  | some .canceled =>
    { trans := { t with
                 state := .error,
                 error_message := some "The order has already been canceled." },
      moves := [] }
  | some .currencyMismatch =>
    { trans := { t with
                 state := .error,
                 error_message := some "Currencies do not match." },
      moves := [] }
  | none =>
    let r := process_splits env splits { t with state := .matched }
    { trans := r.1, moves := r.2 }

/-- The partial-payment detection lines shared (verbatim in the source) by
`_handle_transaction`, the single-order auto-settlement arm of
`match_transactions` and the single-order arm of
`approve_match_suggestion`: record the matched order and, when the amount
is below its pending sum, set the partial-payment flag and the
deterministic `code_date` payment group id. -/
def partial_update (trans : BankTrans) (amount : Rat) (o0 : OrderRec) : BankTrans :=
  let t1 := { trans with order_code := some o0.code }
  if amount < o0.pending_sum then
    { t1 with is_partial_payment := true,
              payment_group_id := some (o0.code ++ "_" ++ trans.date) }
  else t1

/-- `_handle_transaction`: resolve the matched orders, detect a partial
payment against the first order, reject impossible multi-order splits,
check preconditions and apply the money movements. -/
def handle_transaction (env : LedgerEnv) (trans : BankTrans)
    (code_matches : List (String × String))
    (regex_match_to_slug : List (String × String)) (amount_arg : Option Rat) : SettleResult :=
  let amount := amount_arg.getD trans.amount
  let orders := resolve_orders env trans.currency code_matches regex_match_to_slug
  match orders with
  | [] => { trans := { trans with state := .nomatch }, moves := [] }
  | o0 :: rest =>
    let t2 := partial_update trans amount o0
    if rest.length ≠ 0 then
      let order_pending_sum := (o0 :: rest).foldl (fun s o => qadd s o.pending_sum) 0
      if order_pending_sum ≠ amount then
        { trans := { t2 with
                     state := .nomatch,
                     error_message := some "Automatic split to multiple orders not possible." },
          moves := [] }
      else
        settle_splits env t2 (o0 :: rest) ((o0 :: rest).map (fun o => (o, o.pending_sum)))
    else
      settle_splits env t2 [o0] [(o0, amount)]

/-! ## Matching run (`match_transactions`, per transaction) -/

/-- Marker test used by `match_transactions` and
`approve_match_suggestion` to recognize multi-order suggestions. -/
def is_multi_tag (reason : String) : Bool :=
  str_contains reason "Multiple order codes found"

/-- Result of processing one unchecked transaction inside
`match_transactions`: the saved transaction, the suggestion rows persisted
for review (after the delete of the old ones), whether the automatic
settlement path was taken, and the ledger mutations. -/
structure MatchStepResult where
  trans : BankTrans
  persisted : List Suggestion
  auto_settled : Bool
  moves : List MoneyMove
deriving DecidableEq, Repr

/-- The body of the per-transaction loop of `match_transactions`: discard
zero amounts, generate suggestions, auto-settle a qualifying multi-order
cohort or a qualifying single top suggestion, otherwise persist
suggestions (top 10 in the multi-order review arms, top 5 otherwise) and
mark the transaction pending approval. -/
def match_transaction_step (env : LedgerEnv) (trans : BankTrans) : MatchStepResult :=
  if trans.amount = 0 then
    { trans := { trans with state := .discarded },
      persisted := [], auto_settled := false, moves := [] }
  else
    match generate_match_suggestions env trans with
    | [] =>
      { trans := { trans with state := .nomatch },
        persisted := [], auto_settled := false, moves := [] }
    | best_suggestion :: _ =>
      let suggestions := generate_match_suggestions env trans
      let is_eur := upper trans.currency == "EUR"
      let currency_match := upper trans.currency == upper best_suggestion.order.event_currency
      let is_multi_order := is_multi_tag best_suggestion.match_reason
      if is_multi_order then
        let multi_order_suggestions := suggestions.filter (fun s => is_multi_tag s.match_reason)
        if 1 < multi_order_suggestions.length then
          let orders := multi_order_suggestions.map Suggestion.order
          let total_pending := orders.foldl (fun s o => qadd s o.pending_sum) 0
          if qabs (qsub trans.amount total_pending) < mkRat 1 100 && is_eur &&
             orders.all (fun o => upper trans.currency == upper o.event_currency) &&
             mkRat 95 100 ≤ best_suggestion.confidence_score then
            let t1 := { trans with
              order_code := (orders.map OrderRec.code).head?, state := .matched }
            let r := handle_transaction env t1
              (orders.map (fun o => (o.event_slug, o.code))) [] (some trans.amount)
            { trans := r.trans, persisted := [], auto_settled := true, moves := r.moves }
          else
            { trans := { trans with state := .pendingApproval },
              persisted := suggestions.take 10, auto_settled := false, moves := [] }
        else
          { trans := { trans with state := .pendingApproval },
            persisted := suggestions.take 10, auto_settled := false, moves := [] }
      else if best_suggestion.match_type == MatchType.exactCode &&
              mkRat 95 100 ≤ best_suggestion.confidence_score &&
              best_suggestion.amount_match && is_eur && currency_match then
        let order := best_suggestion.order
        let t2 := partial_update { trans with state := .matched } trans.amount order
        let r := handle_transaction env t2 [(order.event_slug, order.code)] [] (some trans.amount)
        { trans := r.trans, persisted := [], auto_settled := true, moves := r.moves }
      else
        { trans := { trans with state := .pendingApproval },
          persisted := suggestions.take 5, auto_settled := false, moves := [] }

/-! ## Review workflow (`approve_match_suggestion`) -/

/-- A persisted `TransactionMatchSuggestion` row for one transaction
(`reviewed_at` / `reviewed_by` are bookkeeping the claims never read and
are omitted). -/
structure SuggestionRec where
  id : Nat
  order : OrderRec
  match_type : MatchType
  confidence_score : Rat
  match_reason : String
  amount_match : Bool
  amount_difference : Rat
  is_approved : Option Bool
deriving DecidableEq, Repr

/-- The state touched by the approval workflow: the transaction, its
suggestion rows, and the ledger-mutation trace. -/
structure ReviewState where
  trans : BankTrans
  suggestions : List SuggestionRec
  moves : List MoneyMove
deriving DecidableEq, Repr

/-- `approve_match_suggestion`: reject re-review, settle a reconciling
multi-order cohort as a whole (falling back to single-order treatment when
the amounts no longer reconcile), otherwise settle the single suggested
order; afterwards mark every still-pending suggestion of the transaction
rejected.  A raised exception rolls back the atomic block, so an
`Except.error` result carries no state change. -/
def approve_match_suggestion (env : LedgerEnv) (st : ReviewState) (suggestion_id : Nat) :
    Except String ReviewState :=
  match st.suggestions.find? (fun s => s.id == suggestion_id) with
  | none => Except.error "TransactionMatchSuggestion matching query does not exist."
  | some suggestion =>
    if suggestion.is_approved ≠ none then
      Except.error "Suggestion has already been reviewed"
    else
      let trans := st.trans
      let related_suggestions := st.suggestions.filter
        (fun s => s.is_approved == none && is_multi_tag s.match_reason)
      let orders := related_suggestions.map SuggestionRec.order
      let total_pending := orders.foldl (fun s o => qadd s o.pending_sum) 0
      let multi_reconciles := qabs (qsub trans.amount total_pending) < mkRat 1 100
      if is_multi_tag suggestion.match_reason ∧ multi_reconciles then
        let sugg1 := st.suggestions.map (fun s =>
          if s.is_approved == none && is_multi_tag s.match_reason then
            { s with is_approved := some true }
          else s)
        let t1 := { trans with
          order_code := (orders.map OrderRec.code).head?, state := .matched }
        let r := handle_transaction env t1
          (orders.map (fun o => (o.event_slug, o.code))) [] (some trans.amount)
        let sugg2 := sugg1.map (fun s =>
          if s.is_approved == none then { s with is_approved := some false } else s)
        Except.ok { trans := r.trans, suggestions := sugg2, moves := st.moves ++ r.moves }
      else
        let order := suggestion.order
        let sugg1 := st.suggestions.map (fun s =>
          if s.id == suggestion_id then { s with is_approved := some true } else s)
        let t2 := partial_update { trans with state := .matched } trans.amount order
        let r := handle_transaction env t2 [(order.event_slug, order.code)] [] (some trans.amount)
        let sugg2 := sugg1.map (fun s =>
          if s.is_approved == none then { s with is_approved := some false } else s)
        Except.ok { trans := r.trans, suggestions := sugg2, moves := st.moves ++ r.moves }

/-! ## Concrete instances used to witness the theorems -/

/-- Blank transaction row as created on ingestion, before matching. -/
def base_trans : BankTrans :=
  { amount := 0
    currency := "EUR"
    reference := ""
    remittance_structured := ""
    remittance_unstructured := ""
    debtor_name := ""
    creditor_name := ""
    date := "2024-05-01"
    state := .unchecked
    error_message := none
    is_partial_payment := false
    payment_group_id := none
    order_code := none
    payment := none }

/-- Environment with no orders and every external lookup empty. -/
def empty_env : LedgerEnv :=
  { orders := []
    invoice_lookup := fun _ _ => none
    confirm_result := fun _ => .ok
    normalize_code := id
    entropy_order_code := 5 }

/-- A pending order used by several witnesses. -/
def sample_order : OrderRec :=
  { code := "ABCD1"
    event_slug := "rw23"
    event_currency := "EUR"
    status := .pending
    pending_sum := 50
    customer_name := "" }

/-- Pending order with a known customer name, for the C6 counterexample. -/
def order_c6 : OrderRec :=
  { code := "ABCD1"
    event_slug := "rw23"
    event_currency := "EUR"
    status := .pending
    pending_sum := 50
    customer_name := "John Smith" }

/-- Environment for the C6 counterexample. -/
def env_c6 : LedgerEnv :=
  { orders := [order_c6]
    invoice_lookup := fun _ _ => none
    confirm_result := fun _ => .ok
    normalize_code := id
    entropy_order_code := 5 }

/-- Transaction for the C6 counterexample: the reference carries the exact
order code and the counterparty name matches the customer name. -/
def trans_c6 : BankTrans :=
  { base_trans with amount := 50, reference := "Order ABCD1 payment", debtor_name := "John Smith" }

/-- Pending order whose code only matches after stripping non-alphanumeric
characters, for the C6 witness (fuzzy stage). -/
def order_c6f : OrderRec :=
  { code := "AB1"
    event_slug := "ev"
    event_currency := "EUR"
    status := .pending
    pending_sum := 50
    customer_name := "" }

/-- Environment for the C6 witness. -/
def env_c6f : LedgerEnv :=
  { orders := [order_c6f]
    invoice_lookup := fun _ _ => none
    confirm_result := fun _ => .ok
    normalize_code := id
    entropy_order_code := 5 }

/-- Transaction for the C6 witness: `A_B1` matches `AB1` only fuzzily (the
underscore survives the exact-stage separator stripping but not the fuzzy
stage's alphanumeric normalization). -/
def trans_c6f : BankTrans := { base_trans with amount := 50, reference := "A_B1" }

/-- Environment for the C3 witness: one pending order matching exactly. -/
def env_c3 : LedgerEnv :=
  { orders := [sample_order]
    invoice_lookup := fun _ _ => none
    confirm_result := fun _ => .ok
    normalize_code := id
    entropy_order_code := 5 }

/-- Transaction for the C3 witness. -/
def trans_c3 : BankTrans := { base_trans with amount := 50, reference := "Order ABCD1 payment" }

/-- The single suggestion `_generate_match_suggestions` produces for the C3
witness. -/
def sugg_c3 : Suggestion :=
  { order := sample_order
    match_type := .exactCode
    confidence_score := 1
    match_reason := "Exact order code ABCD1 found in transaction reference"
    amount_match := true
    amount_difference := 0 }

/-- Pending order used in the multi-order settlement witnesses. -/
def order_a : OrderRec :=
  { code := "AAAA1"
    event_slug := "ev"
    event_currency := "EUR"
    status := .pending
    pending_sum := 50
    customer_name := "" }

/-- Second pending order used in the multi-order settlement witnesses. -/
def order_b : OrderRec :=
  { code := "BBBB2"
    event_slug := "ev"
    event_currency := "EUR"
    status := .pending
    pending_sum := 60
    customer_name := "" }

/-- Environment for the C1 witness: two pending EUR orders, all
confirmations succeed. -/
def env_c1 : LedgerEnv :=
  { orders := [order_a, order_b]
    invoice_lookup := fun _ _ => none
    confirm_result := fun _ => .ok
    normalize_code := id
    entropy_order_code := 5 }

/-- Transaction for the C1 witness: pays both orders in full. -/
def trans_c1 : BankTrans := { base_trans with amount := 110, reference := "AAAA1 BBBB2" }

/-- Canceled order used by the C2 witness. -/
def order_canceled : OrderRec :=
  { code := "CCCC3"
    event_slug := "ev"
    event_currency := "EUR"
    status := .canceled
    pending_sum := 30
    customer_name := "" }

/-- Environment for the C2 witness: a single canceled order. -/
def env_c2 : LedgerEnv :=
  { orders := [order_canceled]
    invoice_lookup := fun _ _ => none
    confirm_result := fun _ => .ok
    normalize_code := id
    entropy_order_code := 5 }

/-- Transaction for the C2 witness. -/
def trans_c2 : BankTrans := { base_trans with amount := 30, reference := "CCCC3" }

/-- Environment for the C5 scenario: confirming the payment of the first
order raises an unexpected exception, confirming the second succeeds. -/
def env_c5 : LedgerEnv :=
  { orders := [order_a, order_b]
    invoice_lookup := fun _ _ => none
    confirm_result := fun c => if c == "AAAA1" then .failed "boom" else .ok
    normalize_code := id
    entropy_order_code := 5 }

/-- Transaction paying both orders of the C5 scenario in full. -/
def trans_c5 : BankTrans := { base_trans with amount := 110, reference := "AAAA1 BBBB2" }

/-- Environment for the C8 scenario: the two pending EUR orders, all
confirmations succeed. -/
def env_c8 : LedgerEnv :=
  { orders := [order_a, order_b]
    invoice_lookup := fun _ _ => none
    confirm_result := fun _ => .ok
    normalize_code := id
    entropy_order_code := 5 }

/-- Transaction for the C8 counterexample: 40 is below the first order's
pending balance of 50, and the two pending balances sum to 110 ≠ 40, so
the multi-order split is rejected. -/
def trans_c8 : BankTrans := { base_trans with amount := 40, reference := "AAAA1 BBBB2" }

/-- Order in a non-EUR event, used by the C10 witness. -/
def order_usd : OrderRec :=
  { code := "DDDD4"
    event_slug := "ev"
    event_currency := "USD"
    status := .pending
    pending_sum := 50
    customer_name := "" }

/-- Environment for the C10 witness: a single pending USD order. -/
def env_c10 : LedgerEnv :=
  { orders := [order_usd]
    invoice_lookup := fun _ _ => none
    confirm_result := fun _ => .ok
    normalize_code := id
    entropy_order_code := 5 }

/-- Review state for the C10 witness: a pending single-order suggestion
pairing a EUR transaction with the USD order. -/
def st_c10 : ReviewState :=
  { trans := { base_trans with amount := 50, reference := "DDDD4" }
    suggestions := [{ id := 1
                      order := order_usd
                      match_type := .exactCode
                      confidence_score := mkRat 9 10
                      match_reason := "Exact order code DDDD4 found in transaction reference (currency mismatch: EUR vs USD)"
                      amount_match := true
                      amount_difference := 0
                      is_approved := none }]
    moves := [] }

/-- Review state for the C4 witness: one already-approved suggestion. -/
def st_c4 : ReviewState :=
  { trans := { base_trans with amount := 50, reference := "ABCD1" }
    suggestions := [{ id := 1
                      order := sample_order
                      match_type := .exactCode
                      confidence_score := 1
                      match_reason := "Exact order code ABCD1 found in transaction reference"
                      amount_match := true
                      amount_difference := 0
                      is_approved := some true }]
    moves := [] }

end BankSync

namespace BankSync

/-! ## Arithmetic helper correctness -/

theorem qadd_eq (a b : Rat) : qadd a b = a + b := by
  unfold qadd
  rw [Rat.mkRat_eq_divInt, Rat.divInt_eq_div]
  have ha : ((a.den : ℚ)) ≠ 0 := by exact_mod_cast a.den_nz
  have hb : ((b.den : ℚ)) ≠ 0 := by exact_mod_cast b.den_nz
  push_cast
  conv_rhs => rw [← Rat.num_div_den a, ← Rat.num_div_den b]
  field_simp

theorem qsub_eq (a b : Rat) : qsub a b = a - b := by
  unfold qsub
  rw [Rat.mkRat_eq_divInt, Rat.divInt_eq_div]
  have ha : ((a.den : ℚ)) ≠ 0 := by exact_mod_cast a.den_nz
  have hb : ((b.den : ℚ)) ≠ 0 := by exact_mod_cast b.den_nz
  push_cast
  conv_rhs => rw [← Rat.num_div_den a, ← Rat.num_div_den b]
  field_simp
  ring

theorem qmul_eq (a b : Rat) : qmul a b = a * b := by
  unfold qmul
  rw [Rat.mkRat_eq_divInt, Rat.divInt_eq_div]
  have ha : ((a.den : ℚ)) ≠ 0 := by exact_mod_cast a.den_nz
  have hb : ((b.den : ℚ)) ≠ 0 := by exact_mod_cast b.den_nz
  push_cast
  conv_rhs => rw [← Rat.num_div_den a, ← Rat.num_div_den b]
  field_simp

theorem qabs_eq (a : Rat) : qabs a = |a| := by
  unfold qabs
  rcases le_or_lt 0 a with h | h
  · rw [if_neg (not_lt.mpr h), abs_of_nonneg h]
  · rw [if_pos h, abs_of_neg h]
    rw [show (-a.num) = (-a).num by simp, show a.den = (-a).den by simp]
    exact (Rat.mkRat_self _)

/-! ## Behavior of the split-processing loop -/

@[simp] theorem moneyMove_code_refund (c : String) (a : Rat) :
    (MoneyMove.refund c a).code = c := rfl

@[simp] theorem moneyMove_code_payment (c : String) (a : Rat) (b : Bool) :
    (MoneyMove.payment c a b).code = c := rfl

@[simp] theorem moneyMove_amount_refund (c : String) (a : Rat) :
    (MoneyMove.refund c a).amount = a := rfl

@[simp] theorem moneyMove_amount_payment (c : String) (a : Rat) (b : Bool) :
    (MoneyMove.payment c a b).amount = a := rfl

theorem process_splits_moves_proj (env : LedgerEnv) (splits : List (OrderRec × Rat))
    (t : BankTrans) :
    ((process_splits env splits t).2).map (fun m => (m.code, m.amount)) =
      splits.map (fun p => (p.1.code, p.2)) := by
  induction splits generalizing t with
  | nil => rfl
  | cons p rest ih =>
    obtain ⟨o, a⟩ := p
    by_cases h : a < 0
    · simp [process_splits, h, ih]
    · cases hc : env.confirm_result o.code with
      | ok => simp [process_splits, h, hc, ih]
      | quotaExceeded => simp [process_splits, h, hc, ih]
      | sendMailFailed => simp [process_splits, h, hc, ih]
      | failed m0 => simp [process_splits, h, hc, ih]

theorem process_splits_no_failure (env : LedgerEnv) (splits : List (OrderRec × Rat))
    (t : BankTrans) (h : confirm_failures env splits = []) :
    (process_splits env splits t).1.state = t.state ∧
    (process_splits env splits t).1.error_message = t.error_message := by
  induction splits generalizing t with
  | nil => exact ⟨rfl, rfl⟩
  | cons p rest ih =>
    obtain ⟨o, a⟩ := p
    by_cases ha : a < 0
    · have hr : confirm_failures env rest = [] := by
        simpa [confirm_failures, ha] using h
      simpa [process_splits, ha] using ih t hr
    · cases hc : env.confirm_result o.code with
      | ok =>
        have hr : confirm_failures env rest = [] := by
          simpa [confirm_failures, ha, hc] using h
        simpa [process_splits, ha, hc] using ih _ hr
      | quotaExceeded =>
        have hr : confirm_failures env rest = [] := by
          simpa [confirm_failures, ha, hc] using h
        simpa [process_splits, ha, hc] using ih _ hr
      | sendMailFailed =>
        have hr : confirm_failures env rest = [] := by
          simpa [confirm_failures, ha, hc] using h
        simpa [process_splits, ha, hc] using ih _ hr
      | failed m =>
        exact absurd h (by simp [confirm_failures, ha, hc])

theorem process_splits_last_failure (env : LedgerEnv) (splits : List (OrderRec × Rat))
    (t : BankTrans) (m : String)
    (h : (confirm_failures env splits).getLast? = some m) :
    (process_splits env splits t).1.state = TransState.error ∧
    (process_splits env splits t).1.error_message = some m := by
  induction splits generalizing t with
  | nil => exact absurd h (by simp [confirm_failures])
  | cons p rest ih =>
    obtain ⟨o, a⟩ := p
    by_cases ha : a < 0
    · have hr : (confirm_failures env rest).getLast? = some m := by
        simpa [confirm_failures, ha] using h
      simpa [process_splits, ha] using ih t hr
    · cases hc : env.confirm_result o.code with
      | ok =>
        have hr : (confirm_failures env rest).getLast? = some m := by
          simpa [confirm_failures, ha, hc] using h
        simpa [process_splits, ha, hc] using ih _ hr
      | quotaExceeded =>
        have hr : (confirm_failures env rest).getLast? = some m := by
          simpa [confirm_failures, ha, hc] using h
        simpa [process_splits, ha, hc] using ih _ hr
      | sendMailFailed =>
        have hr : (confirm_failures env rest).getLast? = some m := by
          simpa [confirm_failures, ha, hc] using h
        simpa [process_splits, ha, hc] using ih _ hr
      | failed m0 =>
        have hcf : confirm_failures env ((o, a) :: rest) = m0 :: confirm_failures env rest := by
          simp [confirm_failures, ha, hc]
        rcases hrest : confirm_failures env rest with _ | ⟨b, L⟩
        · have hm : m0 = m := by
            rw [hcf, hrest] at h
            simpa using h
          have := process_splits_no_failure env rest
            { t with state := .error, error_message := some m0 } hrest
          simpa [process_splits, ha, hc, hm] using this
        · have hr : (confirm_failures env rest).getLast? = some m := by
            rw [hcf, hrest] at h
            rw [hrest]
            simpa [List.getLast?_cons_cons] using h
          simpa [process_splits, ha, hc] using ih _ hr

theorem process_splits_keeps_partial (env : LedgerEnv) (splits : List (OrderRec × Rat))
    (t : BankTrans) :
    (process_splits env splits t).1.is_partial_payment = t.is_partial_payment ∧
    (process_splits env splits t).1.payment_group_id = t.payment_group_id := by
  induction splits generalizing t with
  | nil => exact ⟨rfl, rfl⟩
  | cons p rest ih =>
    obtain ⟨o, a⟩ := p
    by_cases ha : a < 0
    · simpa [process_splits, ha] using ih t
    · cases hc : env.confirm_result o.code with
      | ok => simpa [process_splits, ha, hc] using ih _
      | quotaExceeded => simpa [process_splits, ha, hc] using ih _
      | sendMailFailed => simpa [process_splits, ha, hc] using ih _
      | failed m0 => simpa [process_splits, ha, hc] using ih _

/-! ## Behavior of the precondition-and-process tail of the settlement -/

theorem settle_splits_violation (env : LedgerEnv) (t : BankTrans) (orders : List OrderRec)
    (splits : List (OrderRec × Rat)) (v : Violation)
    (hv : first_violation t.currency orders = some v) :
    (settle_splits env t orders splits).moves = [] ∧
    (settle_splits env t orders splits).trans.state = violation_state v ∧
    (settle_splits env t orders splits).trans.error_message =
      violation_message t.error_message v := by
  unfold settle_splits
  simp only [hv]
  cases v <;> exact ⟨rfl, rfl, rfl⟩

theorem settle_splits_ok (env : LedgerEnv) (t : BankTrans) (orders : List OrderRec)
    (splits : List (OrderRec × Rat))
    (hv : first_violation t.currency orders = none) :
    settle_splits env t orders splits =
      { trans := (process_splits env splits { t with state := .matched }).1
        moves := (process_splits env splits { t with state := .matched }).2 } := by
  unfold settle_splits
  simp only [hv]

/-! ## Behavior of the partial-payment update and of order resolution -/

@[simp] theorem partial_update_currency (t : BankTrans) (a : Rat) (o : OrderRec) :
    (partial_update t a o).currency = t.currency := by
  unfold partial_update
  split <;> rfl

@[simp] theorem partial_update_state (t : BankTrans) (a : Rat) (o : OrderRec) :
    (partial_update t a o).state = t.state := by
  unfold partial_update
  split <;> rfl

@[simp] theorem partial_update_error_message (t : BankTrans) (a : Rat) (o : OrderRec) :
    (partial_update t a o).error_message = t.error_message := by
  unfold partial_update
  split <;> rfl

@[simp] theorem partial_update_date (t : BankTrans) (a : Rat) (o : OrderRec) :
    (partial_update t a o).date = t.date := by
  unfold partial_update
  split <;> rfl

theorem partial_update_flag_pos (t : BankTrans) (a : Rat) (o : OrderRec)
    (h : a < o.pending_sum) :
    (partial_update t a o).is_partial_payment = true ∧
    (partial_update t a o).payment_group_id = some (o.code ++ "_" ++ t.date) := by
  unfold partial_update
  rw [if_pos h]
  exact ⟨rfl, rfl⟩

theorem partial_update_flag_neg (t : BankTrans) (a : Rat) (o : OrderRec)
    (h : ¬ a < o.pending_sum) :
    (partial_update t a o).is_partial_payment = t.is_partial_payment ∧
    (partial_update t a o).payment_group_id = t.payment_group_id := by
  unfold partial_update
  rw [if_neg h]
  exact ⟨rfl, rfl⟩

theorem handle_transaction_nil (env : LedgerEnv) (trans : BankTrans)
    (cms rmap : List (String × String)) (amt : Option Rat)
    (horders : resolve_orders env trans.currency cms rmap = []) :
    handle_transaction env trans cms rmap amt =
      { trans := { trans with state := .nomatch }, moves := [] } := by
  unfold handle_transaction
  simp only [horders]

theorem handle_transaction_single (env : LedgerEnv) (trans : BankTrans)
    (cms rmap : List (String × String)) (amt : Option Rat) (o0 : OrderRec)
    (horders : resolve_orders env trans.currency cms rmap = [o0]) :
    handle_transaction env trans cms rmap amt =
      settle_splits env (partial_update trans (amt.getD trans.amount) o0) [o0]
        [(o0, amt.getD trans.amount)] := by
  unfold handle_transaction
  simp only [horders]
  simp

theorem handle_transaction_multi (env : LedgerEnv) (trans : BankTrans)
    (cms rmap : List (String × String)) (amt : Option Rat) (o0 o1 : OrderRec)
    (rest : List OrderRec)
    (horders : resolve_orders env trans.currency cms rmap = o0 :: o1 :: rest) :
    handle_transaction env trans cms rmap amt =
      (if (o0 :: o1 :: rest).foldl (fun s o => qadd s o.pending_sum) 0 ≠ amt.getD trans.amount
       then
         { trans := { partial_update trans (amt.getD trans.amount) o0 with
                      state := .nomatch,
                      error_message := some "Automatic split to multiple orders not possible." }
           moves := [] }
       else
         settle_splits env (partial_update trans (amt.getD trans.amount) o0)
           (o0 :: o1 :: rest) ((o0 :: o1 :: rest).map (fun o => (o, o.pending_sum)))) := by
  unfold handle_transaction
  simp only [horders]
  simp

/-! ## C1: multi-order splits use pending balances and require an exact sum -/

/-- C1: when a transaction resolves to more than one order, the settlement
proceeds only if the sum of the resolved orders' pending balances equals
the settled amount exactly (the comparison is plain inequality, no
tolerance): on a mismatch no money movement occurs, the state becomes
no-match and the error message is the automatic-split one; on an exact
match (and passing preconditions) the per-order applied amount is exactly
each order's own pending balance. -/
theorem c1_multi_order_split (env : LedgerEnv) (trans : BankTrans)
    (cms rmap : List (String × String)) (amt : Option Rat)
    (hlen : 1 < (resolve_orders env trans.currency cms rmap).length) :
    ((resolve_orders env trans.currency cms rmap).foldl (fun s o => qadd s o.pending_sum) 0 ≠
        amt.getD trans.amount →
      (handle_transaction env trans cms rmap amt).trans.state = TransState.nomatch ∧
      (handle_transaction env trans cms rmap amt).trans.error_message =
        some "Automatic split to multiple orders not possible." ∧
      (handle_transaction env trans cms rmap amt).moves = []) ∧
    ((resolve_orders env trans.currency cms rmap).foldl (fun s o => qadd s o.pending_sum) 0 =
        amt.getD trans.amount →
      first_violation trans.currency (resolve_orders env trans.currency cms rmap) = none →
      (handle_transaction env trans cms rmap amt).moves.map (fun m => (m.code, m.amount)) =
        (resolve_orders env trans.currency cms rmap).map (fun o => (o.code, o.pending_sum))) := by
  rcases horders : resolve_orders env trans.currency cms rmap with _ | ⟨o0, rest⟩
  · rw [horders] at hlen
    simp at hlen
  rcases rest with _ | ⟨o1, rest1⟩
  · rw [horders] at hlen
    simp at hlen
  have hred := handle_transaction_multi env trans cms rmap amt o0 o1 rest1 horders
  constructor
  · intro hsum
    rw [hred, if_pos hsum]
    exact ⟨rfl, rfl, rfl⟩
  · intro hsum hfv
    rw [hred, if_neg (not_ne_iff.mpr hsum)]
    have hfv2 : first_violation
        (partial_update trans (amt.getD trans.amount) o0).currency (o0 :: o1 :: rest1) = none := by
      rw [partial_update_currency]
      exact hfv
    rw [settle_splits_ok env _ _ _ hfv2]
    rw [process_splits_moves_proj]
    simp

/-- C1 witness: the exact-sum multi-order split applied to two concrete
orders whose pending balances sum to the transaction amount: each order
receives exactly its own pending balance. -/
theorem c1_witness :
    1 < (resolve_orders env_c1 trans_c1.currency [("ev", "AAAA1"), ("ev", "BBBB2")] []).length ∧
    (resolve_orders env_c1 trans_c1.currency [("ev", "AAAA1"), ("ev", "BBBB2")] []).foldl
        (fun s o => qadd s o.pending_sum) 0 = (none : Option Rat).getD trans_c1.amount ∧
    first_violation trans_c1.currency
      (resolve_orders env_c1 trans_c1.currency [("ev", "AAAA1"), ("ev", "BBBB2")] []) = none ∧
    (handle_transaction env_c1 trans_c1 [("ev", "AAAA1"), ("ev", "BBBB2")] [] none).moves.map
        (fun m => (m.code, m.amount)) =
      (resolve_orders env_c1 trans_c1.currency [("ev", "AAAA1"), ("ev", "BBBB2")] []).map
        (fun o => (o.code, o.pending_sum)) :=
  ⟨by decide, by decide, by decide,
    (c1_multi_order_split env_c1 trans_c1 [("ev", "AAAA1"), ("ev", "BBBB2")] [] none
        (by decide)).2 (by decide) (by decide)⟩

/-! ## C2: per-order preconditions guard the whole settlement -/

/-- C2: when any resolved order fails a precondition (checked in the source
order: fully-paid-with-nonpositive-pending wins over canceled over
currency mismatch, first violating order wins), the whole settlement fails
before any ledger mutation: no payment or refund is created for any order
and the transaction takes the corresponding terminal state — duplicate for
a fully paid order, error with the already-canceled message for a canceled
order, error with the currency message for a currency mismatch.  (The
hypothesis rules out the multi-order sum-mismatch rejection, which in the
source precedes the precondition loop.) -/
theorem c2_precondition_guard (env : LedgerEnv) (trans : BankTrans)
    (cms rmap : List (String × String)) (amt : Option Rat) (v : Violation)
    (hv : first_violation trans.currency (resolve_orders env trans.currency cms rmap) = some v)
    (hok : (resolve_orders env trans.currency cms rmap).length = 1 ∨
           (resolve_orders env trans.currency cms rmap).foldl
               (fun s o => qadd s o.pending_sum) 0 = amt.getD trans.amount) :
    (handle_transaction env trans cms rmap amt).moves = [] ∧
    (handle_transaction env trans cms rmap amt).trans.state = violation_state v ∧
    (handle_transaction env trans cms rmap amt).trans.error_message =
      violation_message trans.error_message v := by
  rcases horders : resolve_orders env trans.currency cms rmap with _ | ⟨o0, rest⟩
  · rw [horders] at hv
    simp [first_violation] at hv
  rw [horders] at hv
  rcases rest with _ | ⟨o1, rest1⟩
  · have hred := handle_transaction_single env trans cms rmap amt o0 horders
    rw [hred]
    have hv2 : first_violation
        (partial_update trans (amt.getD trans.amount) o0).currency [o0] = some v := by
      rw [partial_update_currency]
      exact hv
    have h3 := settle_splits_violation env _ [o0] [(o0, amt.getD trans.amount)] v hv2
    rcases h3 with ⟨hm, hs, he⟩
    exact ⟨hm, hs, by simpa using he⟩
  · rcases hok with h1 | hsum
    · rw [horders] at h1
      simp at h1
    rw [horders] at hsum
    have hred := handle_transaction_multi env trans cms rmap amt o0 o1 rest1 horders
    rw [hred, if_neg (not_ne_iff.mpr hsum)]
    have hv2 : first_violation
        (partial_update trans (amt.getD trans.amount) o0).currency (o0 :: o1 :: rest1) =
          some v := by
      rw [partial_update_currency]
      exact hv
    have h3 := settle_splits_violation env _ (o0 :: o1 :: rest1)
      ((o0 :: o1 :: rest1).map (fun o => (o, o.pending_sum))) v hv2
    rcases h3 with ⟨hm, hs, he⟩
    exact ⟨hm, hs, by simpa using he⟩

/-- C2 witness: the guard theorem applied to a settlement over a concrete
canceled order: no money moves and the transaction errors with the
already-canceled message. -/
theorem c2_witness :
    first_violation trans_c2.currency
        (resolve_orders env_c2 trans_c2.currency [("ev", "CCCC3")] []) =
      some Violation.canceled ∧
    (resolve_orders env_c2 trans_c2.currency [("ev", "CCCC3")] []).length = 1 ∧
    ((handle_transaction env_c2 trans_c2 [("ev", "CCCC3")] [] none).moves = [] ∧
     (handle_transaction env_c2 trans_c2 [("ev", "CCCC3")] [] none).trans.state =
       TransState.error ∧
     (handle_transaction env_c2 trans_c2 [("ev", "CCCC3")] [] none).trans.error_message =
       some "The order has already been canceled.") :=
  ⟨by decide, by decide, by
    have h := c2_precondition_guard env_c2 trans_c2 [("ev", "CCCC3")] [] none
      Violation.canceled (by decide) (Or.inl (by decide))
    simpa using h⟩

/-! ## Behavior of the suggestion sort and of the generation stages -/

theorem insert_desc_mem (x : Suggestion) (l : List Suggestion) (z : Suggestion) :
    z ∈ insert_desc x l ↔ z = x ∨ z ∈ l := by
  induction l with
  | nil => simp [insert_desc]
  | cons y ys ih =>
    unfold insert_desc
    by_cases hxy : x.confidence_score ≤ y.confidence_score
    · rw [if_pos hxy]
      simp only [List.mem_cons, ih]
      tauto
    · rw [if_neg hxy]
      simp only [List.mem_cons]

theorem sort_desc_mem (l : List Suggestion) (z : Suggestion) :
    z ∈ sort_desc l ↔ z ∈ l := by
  induction l with
  | nil => simp [sort_desc]
  | cons x xs ih =>
    unfold sort_desc
    rw [insert_desc_mem]
    simp [ih]

theorem insert_desc_pairwise (x : Suggestion) (l : List Suggestion)
    (h : l.Pairwise (fun a b => b.confidence_score ≤ a.confidence_score)) :
    (insert_desc x l).Pairwise (fun a b => b.confidence_score ≤ a.confidence_score) := by
  induction l with
  | nil => simp [insert_desc]
  | cons y ys ih =>
    rw [List.pairwise_cons] at h
    obtain ⟨hy, hys⟩ := h
    unfold insert_desc
    by_cases hxy : x.confidence_score ≤ y.confidence_score
    · rw [if_pos hxy]
      rw [List.pairwise_cons]
      refine ⟨?_, ih hys⟩
      intro z hz
      rcases (insert_desc_mem x ys z).1 hz with rfl | hz'
      · exact hxy
      · exact hy z hz'
    · rw [if_neg hxy]
      rw [List.pairwise_cons]
      refine ⟨?_, List.Pairwise.cons hy hys⟩
      intro z hz
      rcases List.mem_cons.1 hz with rfl | hz'
      · exact le_of_not_le hxy
      · exact le_trans (hy z hz') (le_of_not_le hxy)

theorem sort_desc_pairwise (l : List Suggestion) :
    (sort_desc l).Pairwise (fun a b => b.confidence_score ≤ a.confidence_score) := by
  induction l with
  | nil => simp [sort_desc]
  | cons x xs ih =>
    unfold sort_desc
    exact insert_desc_pairwise x (sort_desc xs) ih

theorem generate_match_suggestions_pairwise (env : LedgerEnv) (trans : BankTrans) :
    (generate_match_suggestions env trans).Pairwise
      (fun a b => b.confidence_score ≤ a.confidence_score) := by
  unfold generate_match_suggestions
  by_cases hp : (env.orders.filter (fun o => o.status == OrderStatus.pending)).isEmpty
  · simp [hp]
  · simp only [hp, Bool.false_eq_true, if_false]
    exact List.Pairwise.sublist (List.take_sublist 10 _) (sort_desc_pairwise _)

theorem stage1_exact_type (trans : BankTrans) (po : List OrderRec) :
    ∀ m ∈ stage1_exact trans po, m.match_type = MatchType.exactCode := by
  intro m hm
  unfold stage1_exact at hm
  simp only [] at hm
  split at hm
  · split at hm
    · rcases List.mem_map.1 hm with ⟨o, _, rfl⟩
      rfl
    · rcases List.mem_map.1 hm with ⟨o, _, rfl⟩
      rfl
  · rcases List.mem_map.1 hm with ⟨o, _, rfl⟩
    rfl

theorem stage2_fuzzy_type (trans : BankTrans) (po : List OrderRec) :
    ∀ m ∈ stage2_fuzzy trans po, m.match_type = MatchType.fuzzyCode := by
  intro m hm
  unfold stage2_fuzzy at hm
  simp only [] at hm
  rcases List.mem_map.1 hm with ⟨o, _, rfl⟩
  rfl

theorem stage3_sender_type (trans : BankTrans) (po : List OrderRec) :
    ∀ m ∈ stage3_sender trans po, m.match_type = MatchType.senderName := by
  intro m hm
  unfold stage3_sender at hm
  simp only [] at hm
  split at hm
  · rcases List.mem_filterMap.1 hm with ⟨o, _, heq⟩
    split at heq
    · split at heq
      · cases heq
        rfl
      · cases heq
    · cases heq
  · simp at hm

theorem stage4_amount_type (trans : BankTrans) (po : List OrderRec) :
    ∀ m ∈ stage4_amount trans po, m.match_type = MatchType.amountOnly := by
  intro m hm
  unfold stage4_amount at hm
  simp only [] at hm
  rcases List.mem_filterMap.1 hm with ⟨o, _, heq⟩
  split at heq
  · cases heq
    rfl
  · cases heq

/-! ## C6: stage short-circuiting in suggestion generation -/

/-- C6 (amended): the staging guards of `_generate_match_suggestions` are
asymmetric.  Fuzzy-code suggestions (stage 2) are generated only when the
exact-code stage produced nothing, and amount-only suggestions (stage 4)
only when everything earlier produced nothing — so a fuzzy suggestion in
the output excludes exact ones, and an amount-only suggestion means the
whole output is amount-only.  Sender-name suggestions (stage 3), however,
are generated whenever a sender name is present, regardless of stages 1–2,
and can therefore appear alongside exact- or fuzzy-code suggestions. -/
theorem c6_stage_guards (env : LedgerEnv) (trans : BankTrans) :
    ((∃ m ∈ generate_match_suggestions env trans, m.match_type = MatchType.fuzzyCode) →
       ∀ m ∈ generate_match_suggestions env trans, m.match_type ≠ MatchType.exactCode) ∧
    ((∃ m ∈ generate_match_suggestions env trans, m.match_type = MatchType.amountOnly) →
       ∀ m ∈ generate_match_suggestions env trans, m.match_type = MatchType.amountOnly) := by
  by_cases hp : (env.orders.filter (fun o => o.status == OrderStatus.pending)).isEmpty
  · constructor <;> intro hex <;>
      · rcases hex with ⟨m, hm, _⟩
        rw [generate_match_suggestions, if_pos hp] at hm
        simp at hm
  · have hgen : generate_match_suggestions env trans =
        (sort_desc
          (stage1_exact trans (env.orders.filter (fun o => o.status == OrderStatus.pending)) ++
           (if (stage1_exact trans
                 (env.orders.filter (fun o => o.status == OrderStatus.pending))).isEmpty then
              stage2_fuzzy trans (env.orders.filter (fun o => o.status == OrderStatus.pending))
            else []) ++
           stage3_sender trans (env.orders.filter (fun o => o.status == OrderStatus.pending)) ++
           (if (stage1_exact trans (env.orders.filter
                   (fun o => o.status == OrderStatus.pending)) ++
                (if (stage1_exact trans (env.orders.filter
                      (fun o => o.status == OrderStatus.pending))).isEmpty then
                   stage2_fuzzy trans
                     (env.orders.filter (fun o => o.status == OrderStatus.pending))
                 else []) ++
                stage3_sender trans
                  (env.orders.filter (fun o => o.status == OrderStatus.pending))).isEmpty then
              stage4_amount trans (env.orders.filter (fun o => o.status == OrderStatus.pending))
            else []))).take 10 := by
      rw [generate_match_suggestions, if_neg (by simp [hp])]
    set po := env.orders.filter (fun o => o.status == OrderStatus.pending) with hpo
    set s1 := stage1_exact trans po with hs1
    set s2 := (if s1.isEmpty then stage2_fuzzy trans po else []) with hs2
    set s3 := stage3_sender trans po with hs3
    set s4 := (if (s1 ++ s2 ++ s3).isEmpty then stage4_amount trans po else []) with hs4
    have hmem : ∀ m ∈ generate_match_suggestions env trans, m ∈ s1 ++ s2 ++ s3 ++ s4 := by
      intro m hm
      rw [hgen] at hm
      have := List.mem_of_mem_take hm
      exact (sort_desc_mem _ m).1 this
    constructor
    · rintro ⟨m, hm, hty⟩ m2 hm2 hty2
      have h1 := hmem m hm
      have hs1empty : s1.isEmpty := by
        by_contra hne
        rcases List.mem_append.1 h1 with h | h4
        · rcases List.mem_append.1 h with h | h3
          · rcases List.mem_append.1 h with hin1 | hin2
            · rw [stage1_exact_type trans po m hin1] at hty
              cases hty
            · rw [hs2, if_neg hne] at hin2
              simp at hin2
          · rw [stage3_sender_type trans po m h3] at hty
            cases hty
        · have hty4 : m.match_type = MatchType.amountOnly := by
            rw [hs4] at h4
            split at h4
            · exact stage4_amount_type trans po m h4
            · simp at h4
          rw [hty4] at hty
          cases hty
      have h2 := hmem m2 hm2
      rcases List.mem_append.1 h2 with h | h4
      · rcases List.mem_append.1 h with h | h3
        · rcases List.mem_append.1 h with hin1 | hin2
          · rw [List.isEmpty_iff] at hs1empty
            rw [hs1empty] at hin1
            simp at hin1
          · have : m2.match_type = MatchType.fuzzyCode := by
              rw [hs2, if_pos hs1empty] at hin2
              exact stage2_fuzzy_type trans po m2 hin2
            rw [this] at hty2
            cases hty2
        · rw [stage3_sender_type trans po m2 h3] at hty2
          cases hty2
      · have : m2.match_type = MatchType.amountOnly := by
          rw [hs4] at h4
          split at h4
          · exact stage4_amount_type trans po m2 h4
          · simp at h4
        rw [this] at hty2
        cases hty2
    · rintro ⟨m, hm, hty⟩ m2 hm2
      have h1 := hmem m hm
      have hempty : (s1 ++ s2 ++ s3).isEmpty := by
        by_contra hne
        have hty' : m.match_type ≠ MatchType.amountOnly := by
          rcases List.mem_append.1 h1 with h | h4
          · rcases List.mem_append.1 h with h | h3
            · rcases List.mem_append.1 h with hin1 | hin2
              · rw [stage1_exact_type trans po m hin1]
                simp
              · rw [hs2] at hin2
                split at hin2
                · rw [stage2_fuzzy_type trans po m hin2]
                  simp
                · simp at hin2
            · rw [stage3_sender_type trans po m h3]
              simp
          · rw [hs4, if_neg hne] at h4
            simp at h4
        exact hty' hty
      have h2 := hmem m2 hm2
      rw [List.isEmpty_iff] at hempty
      rw [hempty] at h2
      simp only [List.nil_append] at h2
      rw [hs4] at h2
      split at h2
      · exact stage4_amount_type trans po m2 h2
      · simp at h2

/-- C6 counterexample: the claim asserts that once stage 1 (exact code)
yields a suggestion, no sender-name suggestion appears in the returned
list.  On the code stage 3 is guarded only by the presence of a sender
name: for a transaction whose reference holds an exact order code and
whose counterparty name matches the customer, the returned list contains
both an exact-code suggestion and a sender-name suggestion. -/
theorem c6_counterexample :
    (∃ m ∈ generate_match_suggestions env_c6 trans_c6,
       m.match_type = MatchType.exactCode) ∧
    (∃ m ∈ generate_match_suggestions env_c6 trans_c6,
       m.match_type = MatchType.senderName) := by
  decide

/-- C6 witness: the guard theorem applied to a concrete fuzzy-only match —
a fuzzy suggestion is returned and consequently no exact-code suggestion
appears. -/
theorem c6_witness :
    (∃ m ∈ generate_match_suggestions env_c6f trans_c6f,
       m.match_type = MatchType.fuzzyCode) ∧
    (∀ m ∈ generate_match_suggestions env_c6f trans_c6f,
       m.match_type ≠ MatchType.exactCode) :=
  ⟨by decide, (c6_stage_guards env_c6f trans_c6f).1 (by decide)⟩

/-! ## C3: single-order auto-approval policy -/

/-- C3: when a transaction has suggestions and the top-ranked one is a
single-order candidate (not tagged as multi-order), the automatic
settlement path is taken exactly when the top suggestion is an exact-code
match with confidence at least 0.95, a matched amount, an uppercased
transaction currency equal to EUR and equal to the uppercased event
currency of the suggested order; in every other case the transaction is
marked pending approval and exactly the top five suggestions are
persisted, in descending confidence order. -/
theorem c3_single_order_policy (env : LedgerEnv) (trans : BankTrans)
    (best : Suggestion) (rest : List Suggestion)
    (hne : trans.amount ≠ 0)
    (hgen : generate_match_suggestions env trans = best :: rest)
    (hsingle : is_multi_tag best.match_reason = false) :
    ((match_transaction_step env trans).auto_settled = true ↔
       (best.match_type = MatchType.exactCode ∧
        mkRat 95 100 ≤ best.confidence_score ∧
        best.amount_match = true ∧
        upper trans.currency = "EUR" ∧
        upper trans.currency = upper best.order.event_currency)) ∧
    ((match_transaction_step env trans).auto_settled = false →
       (match_transaction_step env trans).trans.state = TransState.pendingApproval ∧
       (match_transaction_step env trans).persisted = (best :: rest).take 5 ∧
       (match_transaction_step env trans).persisted.length ≤ 5 ∧
       (match_transaction_step env trans).persisted.Pairwise
         (fun a b => b.confidence_score ≤ a.confidence_score)) := by
  have hpair := generate_match_suggestions_pairwise env trans
  rw [hgen] at hpair
  unfold match_transaction_step
  rw [if_neg hne]
  simp only [hgen]
  rw [if_neg (by
    intro hmul
    rw [hsingle] at hmul
    exact Bool.false_ne_true hmul)]
  split
  next hcond =>
    constructor
    · constructor
      · intro _
        simp only [Bool.and_eq_true, beq_iff_eq, decide_eq_true_eq] at hcond
        obtain ⟨⟨⟨⟨h1, h2⟩, h3⟩, h4⟩, h5⟩ := hcond
        exact ⟨h1, h2, h3, h4, h5⟩
      · intro _
        rfl
    · intro hfalse
      simp at hfalse
  next hcond =>
    constructor
    · constructor
      · intro htrue
        simp at htrue
      · intro hprops
        exfalso
        apply hcond
        simp only [Bool.and_eq_true, beq_iff_eq, decide_eq_true_eq]
        exact ⟨⟨⟨⟨hprops.1, hprops.2.1⟩, hprops.2.2.1⟩, hprops.2.2.2.1⟩, hprops.2.2.2.2⟩
    · intro _
      refine ⟨rfl, rfl, ?_, ?_⟩
      · rw [List.length_take]
        exact min_le_left _ _
      · exact List.Pairwise.sublist (List.take_sublist 5 (best :: rest)) hpair

/-- C3 witness: a concrete exact-code, amount-matched, EUR suggestion is
auto-settled. -/
theorem c3_witness :
    trans_c3.amount ≠ 0 ∧
    generate_match_suggestions env_c3 trans_c3 = [sugg_c3] ∧
    is_multi_tag sugg_c3.match_reason = false ∧
    (match_transaction_step env_c3 trans_c3).auto_settled = true :=
  ⟨by decide, by decide, by decide,
    ((c3_single_order_policy env_c3 trans_c3 sugg_c3 [] (by decide) (by decide)
        (by decide)).1).mpr (by decide)⟩

/-! ## Order resolution is currency-filtered (supporting C10) -/

theorem findSome?_find?_mem {α : Type} (qs : List α) (p : String → α → Bool)
    (cs : List String) (o : α) (h : cs.findSome? (fun c => qs.find? (p c)) = some o) :
    o ∈ qs := by
  induction cs with
  | nil => simp at h
  | cons c cs ih =>
    rw [List.findSome?_cons] at h
    rcases hf : qs.find? (p c) with _ | o'
    · rw [hf] at h
      exact ih h
    · rw [hf] at h
      cases h
      exact List.mem_of_find?_eq_some hf

theorem find_order_for_code_mem (env : LedgerEnv) (qs : List OrderRec) (code : String)
    (o : OrderRec) (h : find_order_for_code env qs code = some o) : o ∈ qs := by
  unfold find_order_for_code at h
  exact findSome?_find?_mem qs (fun c o => o.code == c) _ o h

theorem resolve_step_currency (env : LedgerEnv) (currency : String)
    (rmap : List (String × String)) (acc : List OrderRec) (m : String × String)
    (hinv : ∀ ps c, env.invoice_lookup ps c = none)
    (hacc : ∀ o ∈ acc, o.event_currency = currency) :
    ∀ o ∈ resolve_step env currency rmap acc m, o.event_currency = currency := by
  intro o ho
  unfold resolve_step at ho
  simp only [] at ho
  rcases hfind : find_order_for_code env
      ((env.orders.filter (fun o => o.event_currency == currency)).filter (fun o =>
        upper o.event_slug == upper m.1 ||
        upper o.event_slug == upper (assoc_get_default rmap m.1))) m.2 with _ | o'
  · rw [hfind] at ho
    simp only [] at ho
    rw [hinv] at ho
    simp only [] at ho
    exact hacc o ho
  · rw [hfind] at ho
    simp only [] at ho
    by_cases hdup : (acc.map OrderRec.code).contains o'.code
    · rw [if_pos hdup] at ho
      exact hacc o ho
    · rw [if_neg hdup] at ho
      rcases List.mem_append.1 ho with hmem | hmem
      · exact hacc o hmem
      · have : o = o' := by simpa using hmem
        subst this
        have h1 := find_order_for_code_mem env _ m.2 o hfind
        have h2 := (List.mem_filter.1 h1).1
        have h3 := (List.mem_filter.1 h2).2
        simpa using h3

theorem resolve_orders_currency (env : LedgerEnv) (currency : String)
    (cms rmap : List (String × String))
    (hinv : ∀ ps c, env.invoice_lookup ps c = none) :
    ∀ o ∈ resolve_orders env currency cms rmap, o.event_currency = currency := by
  unfold resolve_orders
  suffices h : ∀ acc : List OrderRec, (∀ o ∈ acc, o.event_currency = currency) →
      ∀ o ∈ cms.foldl (resolve_step env currency rmap) acc, o.event_currency = currency by
    exact h [] (by simp)
  induction cms with
  | nil =>
    intro acc hacc
    simpa using hacc
  | cons m ms ih =>
    intro acc hacc
    rw [List.foldl_cons]
    exact ih _ (resolve_step_currency env currency rmap acc m hinv hacc)

theorem first_violation_no_mismatch (currency : String) (orders : List OrderRec)
    (h : ∀ o ∈ orders, o.event_currency = currency) :
    first_violation currency orders ≠ some Violation.currencyMismatch := by
  induction orders with
  | nil => simp [first_violation]
  | cons o os ih =>
    have hco : o.event_currency = currency := h o (by simp)
    simp only [first_violation]
    split_ifs with h1 h2 h3
    · simp
    · simp
    · exact absurd hco.symm h3
    · exact ih (fun x hx => h x (List.mem_cons_of_mem o hx))

theorem resolve_orders_single_empty (env : LedgerEnv) (currency slug code : String)
    (hinv : ∀ ps c, env.invoice_lookup ps c = none)
    (hslug : ∀ o ∈ env.orders, o.event_currency = currency →
       upper o.event_slug ≠ upper slug) :
    resolve_orders env currency [(slug, code)] [] = [] := by
  unfold resolve_orders
  rw [List.foldl_cons, List.foldl_nil]
  unfold resolve_step
  simp only []
  have hfilter : ((env.orders.filter (fun o => o.event_currency == currency)).filter (fun o =>
      upper o.event_slug == upper slug ||
      upper o.event_slug == upper (assoc_get_default [] slug))) = [] := by
    rw [List.filter_eq_nil_iff]
    intro o ho
    have h1 := (List.mem_filter.1 ho).1
    have h2 := (List.mem_filter.1 ho).2
    have hcur : o.event_currency = currency := by simpa using h2
    have hne := hslug o h1 hcur
    have : assoc_get_default ([] : List (String × String)) slug = slug := rfl
    simp [this, hne]
  rw [hfilter]
  have hfind : find_order_for_code env [] code = none := rfl
  rw [hfind, hinv]

/-! ## C10: settlement re-resolution is currency-filtered -/

/-- C10: the settlement re-resolves orders through a queryset filtered by
`event__currency = trans.currency`, so (i) with an empty invoice ledger
every resolved order has the transaction's currency and the
currencies-do-not-match precondition branch can never fire, and (ii) when
an approved single-order suggestion's order lives in an event whose events
of that slug have no order in the transaction currency (in particular when
its event currency differs), the order is not found again: the approval
call still succeeds and marks the suggestion approved, but no money moves
and the transaction ends in the no-match state. -/
theorem c10_unreachable_currency_branch (env : LedgerEnv) (st : ReviewState) (sid : Nat)
    (s : SuggestionRec)
    (hinv : ∀ ps c, env.invoice_lookup ps c = none)
    (hfind : st.suggestions.find? (fun x => x.id == sid) = some s)
    (hpend : s.is_approved = none)
    (hnm : is_multi_tag s.match_reason = false)
    (_hcur : s.order.event_currency ≠ st.trans.currency)
    (hslug : ∀ o ∈ env.orders, o.event_currency = st.trans.currency →
       upper o.event_slug ≠ upper s.order.event_slug) :
    (∀ c cms rmap, first_violation c (resolve_orders env c cms rmap) ≠
       some Violation.currencyMismatch) ∧
    (∃ st2, approve_match_suggestion env st sid = Except.ok st2 ∧
       st2.trans.state = TransState.nomatch ∧
       st2.moves = st.moves ∧
       (∀ x ∈ st2.suggestions, x.id = sid → x.is_approved = some true)) := by
  constructor
  · intro c cms rmap
    exact first_violation_no_mismatch c _ (resolve_orders_currency env c cms rmap hinv)
  · have hres : resolve_orders env
        (partial_update { st.trans with state := .matched } st.trans.amount s.order).currency
        [(s.order.event_slug, s.order.code)] [] = [] := by
      rw [partial_update_currency]
      exact resolve_orders_single_empty env st.trans.currency s.order.event_slug s.order.code
        hinv hslug
    have hred := handle_transaction_nil env
      (partial_update { st.trans with state := .matched } st.trans.amount s.order)
      [(s.order.event_slug, s.order.code)] [] (some st.trans.amount) hres
    have happ : approve_match_suggestion env st sid = Except.ok
        { trans := { partial_update { st.trans with state := .matched } st.trans.amount s.order
                     with state := .nomatch }
          suggestions := (st.suggestions.map (fun s2 =>
              if s2.id == sid then { s2 with is_approved := some true } else s2)).map (fun s2 =>
              if s2.is_approved == none then { s2 with is_approved := some false } else s2)
          moves := st.moves ++ [] } := by
      unfold approve_match_suggestion
      rw [hfind]
      simp only []
      rw [if_neg (not_ne_iff.mpr hpend)]
      rw [if_neg (by
        intro hand
        rw [hnm] at hand
        exact Bool.false_ne_true hand.1)]
      rw [hred]
    refine ⟨_, happ, rfl, by simp, ?_⟩
    intro x hx hid
    simp only [List.mem_map] at hx
    rcases hx with ⟨y0, ⟨y, hy, hy0⟩, hx⟩
    by_cases hyid : y.id == sid
    · rw [if_pos hyid] at hy0
      subst hy0
      rw [if_neg (by simp)] at hx
      subst hx
      rfl
    · rw [if_neg hyid] at hy0
      subst hy0
      have hxid : x.id = y.id := by
        by_cases hap : (y.is_approved == none)
        · rw [if_pos hap] at hx
          subst hx
          rfl
        · rw [if_neg hap] at hx
          subst hx
          rfl
      rw [hid] at hxid
      exact absurd (by simp [hxid] : (y.id == sid) = true) hyid

/-- C10 witness: approving the pending suggestion of a EUR transaction for
a USD order succeeds, marks the suggestion approved, but settles nothing:
the currency-filtered re-resolution finds no order and the transaction
ends in the no-match state. -/
theorem c10_witness :
    st_c10.suggestions.find? (fun x => x.id == 1) =
      some (st_c10.suggestions.get ⟨0, by decide⟩) ∧
    (st_c10.suggestions.get ⟨0, by decide⟩).order.event_currency ≠ st_c10.trans.currency ∧
    (∃ st2, approve_match_suggestion env_c10 st_c10 1 = Except.ok st2 ∧
       st2.trans.state = TransState.nomatch ∧
       st2.moves = st_c10.moves ∧
       (∀ x ∈ st2.suggestions, x.id = 1 → x.is_approved = some true)) :=
  ⟨by decide, by decide,
    (c10_unreachable_currency_branch env_c10 st_c10 1 (st_c10.suggestions.get ⟨0, by decide⟩)
        (fun _ _ => rfl) (by decide) (by decide) (by decide) (by decide) (by decide)).2⟩

/-! ## C8: partial-payment flag and payment group id -/

theorem settle_splits_keeps_partial (env : LedgerEnv) (t : BankTrans)
    (orders : List OrderRec) (splits : List (OrderRec × Rat)) :
    (settle_splits env t orders splits).trans.is_partial_payment = t.is_partial_payment ∧
    (settle_splits env t orders splits).trans.payment_group_id = t.payment_group_id := by
  unfold settle_splits
  rcases hv : first_violation t.currency orders with _ | v
  · simp only [hv]
    have h := process_splits_keeps_partial env splits { t with state := .matched }
    simpa using h
  · simp only [hv]
    cases v <;> exact ⟨rfl, rfl⟩

/-- C8 (amended): during settlement the partial-payment flag and the
payment group id are assigned together from a single condition — the
settled amount being strictly below the FIRST resolved order's pending
balance — evaluated before the settlement outcome is known, so they can be
set even when the multi-order split is then rejected or a precondition
fails and no amount is applied to any order.  Given an initially clean
transaction, the group id is assigned if and only if the flag is set, and
it is the deterministic string `code_date` built from the first resolved
order's code and the transaction's value date. -/
theorem c8_partial_flag (env : LedgerEnv) (trans : BankTrans)
    (cms rmap : List (String × String)) (amt : Option Rat)
    (h1 : trans.is_partial_payment = false) (h2 : trans.payment_group_id = none) :
    (resolve_orders env trans.currency cms rmap = [] →
       (handle_transaction env trans cms rmap amt).trans.is_partial_payment = false ∧
       (handle_transaction env trans cms rmap amt).trans.payment_group_id = none) ∧
    (∀ o0 rest, resolve_orders env trans.currency cms rmap = o0 :: rest →
       ((handle_transaction env trans cms rmap amt).trans.is_partial_payment = true ↔
          amt.getD trans.amount < o0.pending_sum) ∧
       (handle_transaction env trans cms rmap amt).trans.payment_group_id =
         (if amt.getD trans.amount < o0.pending_sum then some (o0.code ++ "_" ++ trans.date)
          else none)) := by
  constructor
  · intro horders
    rw [handle_transaction_nil env trans cms rmap amt horders]
    exact ⟨h1, h2⟩
  · intro o0 rest horders
    have hflag : (partial_update trans (amt.getD trans.amount) o0).is_partial_payment =
        (if amt.getD trans.amount < o0.pending_sum then true else false) ∧
        (partial_update trans (amt.getD trans.amount) o0).payment_group_id =
        (if amt.getD trans.amount < o0.pending_sum then some (o0.code ++ "_" ++ trans.date)
         else none) := by
      by_cases hp : amt.getD trans.amount < o0.pending_sum
      · have h := partial_update_flag_pos trans (amt.getD trans.amount) o0 hp
        rw [if_pos hp, if_pos hp]
        exact h
      · have h := partial_update_flag_neg trans (amt.getD trans.amount) o0 hp
        rw [if_neg hp, if_neg hp, h.1, h.2]
        exact ⟨h1, h2⟩
    rcases rest with _ | ⟨o1, rest1⟩
    · rw [handle_transaction_single env trans cms rmap amt o0 horders]
      have hk := settle_splits_keeps_partial env (partial_update trans (amt.getD trans.amount) o0)
        [o0] [(o0, amt.getD trans.amount)]
      rw [hk.1, hk.2, hflag.1, hflag.2]
      constructor
      · by_cases hp : amt.getD trans.amount < o0.pending_sum <;> simp [hp]
      · rfl
    · rw [handle_transaction_multi env trans cms rmap amt o0 o1 rest1 horders]
      by_cases hsum : (o0 :: o1 :: rest1).foldl (fun s o => qadd s o.pending_sum) 0 ≠
          amt.getD trans.amount
      · rw [if_pos hsum]
        constructor
        · show (partial_update trans (amt.getD trans.amount) o0).is_partial_payment = true ↔ _
          rw [hflag.1]
          by_cases hp : amt.getD trans.amount < o0.pending_sum <;> simp [hp]
        · show (partial_update trans (amt.getD trans.amount) o0).payment_group_id = _
          rw [hflag.2]
      · rw [if_neg hsum]
        have hk := settle_splits_keeps_partial env
          (partial_update trans (amt.getD trans.amount) o0) (o0 :: o1 :: rest1)
          ((o0 :: o1 :: rest1).map (fun o => (o, o.pending_sum)))
        rw [hk.1, hk.2, hflag.1, hflag.2]
        constructor
        · by_cases hp : amt.getD trans.amount < o0.pending_sum <;> simp [hp]
        · rfl

/-- C8 witness: the amended theorem applied to a concrete single-order
partial payment (30 against a pending balance of 50): the flag is set and
the group id is the order code joined with the value date. -/
theorem c8_witness :
    ({ base_trans with amount := 30, reference := "AAAA1" } : BankTrans).is_partial_payment =
      false ∧
    ({ base_trans with amount := 30, reference := "AAAA1" } : BankTrans).payment_group_id =
      none ∧
    resolve_orders env_c8
        ({ base_trans with amount := 30, reference := "AAAA1" } : BankTrans).currency
        [("ev", "AAAA1")] [] = [order_a] ∧
    ((handle_transaction env_c8 { base_trans with amount := 30, reference := "AAAA1" }
        [("ev", "AAAA1")] [] none).trans.is_partial_payment = true ↔
      (none : Option Rat).getD
          ({ base_trans with amount := 30, reference := "AAAA1" } : BankTrans).amount <
        order_a.pending_sum) ∧
    (handle_transaction env_c8 { base_trans with amount := 30, reference := "AAAA1" }
        [("ev", "AAAA1")] [] none).trans.payment_group_id =
      (if (none : Option Rat).getD
            ({ base_trans with amount := 30, reference := "AAAA1" } : BankTrans).amount <
          order_a.pending_sum then
        some (order_a.code ++ "_" ++
          ({ base_trans with amount := 30, reference := "AAAA1" } : BankTrans).date)
      else none) :=
  ⟨by decide, by decide, by decide,
    ((c8_partial_flag env_c8 { base_trans with amount := 30, reference := "AAAA1" }
          [("ev", "AAAA1")] [] none (by decide) (by decide)).2 order_a [] (by decide)).1,
    ((c8_partial_flag env_c8 { base_trans with amount := 30, reference := "AAAA1" }
          [("ev", "AAAA1")] [] none (by decide) (by decide)).2 order_a [] (by decide)).2⟩

/-- C8 counterexample: the claim ties the flag to "the amount applied to
the single matched order being less than that order's pending balance"; on
the code the flag and group id are set before the settlement outcome is
decided.  Concretely, a 40 transaction matching two orders with pending
balances 50 and 60 is rejected (automatic split impossible, state
no-match, no money movement at all), yet it is saved with the
partial-payment flag set and a group id assigned. -/
theorem c8_counterexample :
    (handle_transaction env_c8 trans_c8 [("ev", "AAAA1"), ("ev", "BBBB2")] []
        none).trans.is_partial_payment = true ∧
    (handle_transaction env_c8 trans_c8 [("ev", "AAAA1"), ("ev", "BBBB2")] []
        none).trans.payment_group_id = some "AAAA1_2024-05-01" ∧
    (handle_transaction env_c8 trans_c8 [("ev", "AAAA1"), ("ev", "BBBB2")] []
        none).trans.state = TransState.nomatch ∧
    (handle_transaction env_c8 trans_c8 [("ev", "AAAA1"), ("ev", "BBBB2")] [] none).moves =
      [] := by
  decide

/-! ## C5: confirmation failures inside a settlement -/

/-- C5 (amended): inside the settlement loop, inventory-exceeded and
notification failures are swallowed, so if no other exception occurs the
transaction keeps the matched state and an empty error message; any other
confirmation failure sets the error state with the message of the last
such failure — but the loop does not stop: every split is still processed
(first conjunct). -/
theorem c5_confirmation_failures (env : LedgerEnv) (splits : List (OrderRec × Rat))
    (t : BankTrans) (hstate : t.state = TransState.matched)
    (hmsg : t.error_message = none) :
    (((process_splits env splits t).2).map (fun m => (m.code, m.amount)) =
       splits.map (fun p => (p.1.code, p.2))) ∧
    (confirm_failures env splits = [] →
       (process_splits env splits t).1.state = TransState.matched ∧
       (process_splits env splits t).1.error_message = none) ∧
    (∀ m, (confirm_failures env splits).getLast? = some m →
       (process_splits env splits t).1.state = TransState.error ∧
       (process_splits env splits t).1.error_message = some m) := by
  refine ⟨process_splits_moves_proj env splits t, ?_, ?_⟩
  · intro h
    have := process_splits_no_failure env splits t h
    rw [hstate, hmsg] at this
    exact this
  · intro m h
    exact process_splits_last_failure env splits t m h

/-- C5 witness: the amended theorem applied to a concrete settlement whose
first confirmation raises an unexpected exception while the second
succeeds: the transaction ends in the error state with that message. -/
theorem c5_witness :
    ({ base_trans with state := .matched } : BankTrans).state = TransState.matched ∧
    ({ base_trans with state := .matched } : BankTrans).error_message = none ∧
    (confirm_failures env_c5 [(order_a, 50), (order_b, 60)]).getLast? = some "boom" ∧
    ((process_splits env_c5 [(order_a, 50), (order_b, 60)]
        { base_trans with state := .matched }).1.state = TransState.error ∧
     (process_splits env_c5 [(order_a, 50), (order_b, 60)]
        { base_trans with state := .matched }).1.error_message = some "boom") :=
  ⟨by decide, by decide, by decide,
    (c5_confirmation_failures env_c5 [(order_a, 50), (order_b, 60)]
        { base_trans with state := .matched } (by decide) (by decide)).2.2
      "boom" (by decide)⟩

/-- C5 counterexample: the claim asserts that an unexpected confirmation
failure stops processing of all further orders in the settlement.  On the
code the loop continues: after the first order's confirmation fails with
"boom", the second order's payment is still created and confirmed, while
the transaction ends in the error state with that message. -/
theorem c5_counterexample :
    (handle_transaction env_c5 trans_c5 [("ev", "AAAA1"), ("ev", "BBBB2")] [] none).trans.state =
      TransState.error ∧
    (handle_transaction env_c5 trans_c5 [("ev", "AAAA1"), ("ev", "BBBB2")] []
        none).trans.error_message = some "boom" ∧
    (handle_transaction env_c5 trans_c5 [("ev", "AAAA1"), ("ev", "BBBB2")] [] none).moves =
      [MoneyMove.payment "AAAA1" 50 false, MoneyMove.payment "BBBB2" 60 true] := by
  decide

/-! ## C7: name-similarity on a comma-separated name -/

/-- C7 counterexample: the claim asserts that `"John Smith"` against
`"Smith, John"` scores a Jaccard similarity of 1.0; on the code the token
`SMITH,` keeps its comma, so the score is not 1. -/
theorem c7_counterexample :
    calculate_name_similarity "John Smith" "Smith, John" ≠ 1 := by decide

/-- C7 (amended): tokenization is whitespace-only and keeps punctuation, so
against `"Smith, John"` the token `SMITH,` differs from `SMITH`; only
`JOHN` is shared by the two three-token-union sets and the similarity is
1/3, not 1.0. -/
theorem c7_amended_similarity :
    calculate_name_similarity "John Smith" "Smith, John" = mkRat 1 3 := by decide

/-! ## C9: zero-amount transactions are discarded -/

/-- C9: a transaction with amount exactly zero is discarded by the matching
run before suggestion generation or the approval policy: it never reaches
the matched state and produces no suggestion and no ledger mutation. -/
theorem c9_zero_amount_discarded (env : LedgerEnv) (trans : BankTrans)
    (h : trans.amount = 0) :
    (match_transaction_step env trans).trans.state = TransState.discarded ∧
    (match_transaction_step env trans).persisted = [] ∧
    (match_transaction_step env trans).auto_settled = false ∧
    (match_transaction_step env trans).moves = [] := by
  unfold match_transaction_step
  rw [if_pos h]
  exact ⟨rfl, rfl, rfl, rfl⟩

/-- C9 witness: the discarding theorem applied to a concrete zero-amount
transaction. -/
theorem c9_witness :
    base_trans.amount = 0 ∧
    ((match_transaction_step empty_env base_trans).trans.state = TransState.discarded ∧
     (match_transaction_step empty_env base_trans).persisted = [] ∧
     (match_transaction_step empty_env base_trans).auto_settled = false ∧
     (match_transaction_step empty_env base_trans).moves = []) :=
  ⟨by decide, c9_zero_amount_discarded empty_env base_trans (by decide)⟩

/-! ## C4: approving an already-reviewed suggestion fails -/

/-- C4: if the suggestion's tri-state approval flag is already resolved
(approved or rejected), `approve_match_suggestion` fails with the
already-reviewed error.  The body raises before any mutation and runs
inside an atomic block, so the error return carries no state change: no
payment or refund is created and the transaction and all suggestions are
left unchanged. -/
theorem c4_already_reviewed (env : LedgerEnv) (st : ReviewState) (sid : Nat)
    (s : SuggestionRec)
    (hfind : st.suggestions.find? (fun x => x.id == sid) = some s)
    (hres : s.is_approved ≠ none) :
    approve_match_suggestion env st sid =
      Except.error "Suggestion has already been reviewed" := by
  unfold approve_match_suggestion
  rw [hfind]
  simp only [if_pos hres]

/-- C4 witness: a second approval attempt on a concrete already-approved
suggestion fails with the already-reviewed error. -/
theorem c4_witness :
    st_c4.suggestions.find? (fun x => x.id == 1) = some (st_c4.suggestions.get ⟨0, by decide⟩) ∧
    (st_c4.suggestions.get ⟨0, by decide⟩).is_approved ≠ none ∧
    approve_match_suggestion empty_env st_c4 1 =
      Except.error "Suggestion has already been reviewed" :=
  ⟨by decide, by decide,
    c4_already_reviewed empty_env st_c4 1 (st_c4.suggestions.get ⟨0, by decide⟩)
      (by decide) (by decide)⟩

end BankSync
